import Mathlib

/-!
Verification of the vm-spinner orchestrator (`main.go`).

The development shallowly embeds the parts of the program the claims are
about:

* the worker goroutine's event-selection loop (the `select` statement over
  the five VM-session channels) as a pure step function `workerStep`;
* the default-value helpers `defaultParallelism` / `defaultNumCPUs`
  (Go integer division by zero is a runtime panic, modelled as `none`);
* `validateParameters` and the early-return structure of `runApp` up to
  job construction;
* `initLog`, parametrised by the file-open primitive so that the claim
  about which filename is opened can be stated without modelling the OS;
* the VM-config construction of the dispatch loop (`mkVMConfig`,
  instance name `fmt.Sprintf("/tmp/%s-%d", image, i)`);
* the concurrency skeleton of `runApp` (semaphore-bounded dispatch,
  worker exit with deferred release, `wg.Wait`, `close(resCh)`,
  aggregator drain, `job.Done()`) as a labelled transition system
  `RunStep` with explicit guards taken from the blocking operations.
-/

/-! ### Data model: events, outputs, configuration (main.go / vmjobs) -/

/-- Logrus severities used by the worker loop (`logger.Trace/Debug/Info/Error`). -/
inductive LogLevel where
  | trace
  | debug
  | info
  | error
deriving DecidableEq, Repr

/-- One log line emitted by a worker: severity, the `"vm"` field attached via
`log.WithFields(log.Fields{"vm": conf.BoxName})`, and the message. -/
structure LogEntry where
  level : LogLevel
  vmField : String
  msg : String
deriving DecidableEq, Repr

/-- `vmjobs.VMOutput`: an aggregation-channel record pairing a VM identifier
with one command-output line. -/
structure VMOutput where
  VM : String
  Line : String
deriving DecidableEq, Repr

/-- `VMConfig` as constructed in the dispatch loop of `runApp`. -/
structure VMConfig where
  Name : String
  BoxName : String
  ProviderName : String
  CPUs : Int
  Memory : Int
  Command : String
deriving DecidableEq, Repr

/-- One event received by the worker's `select` statement: the five channels
of `RunVirtualMachine` (`Done`, `CmdOutput`, `Debug`, `Info`, `Error`). -/
inductive VMEvent where
  | done
  | cmdOutput (line : String)
  | debug (line : String)
  | info (line : String)
  | error (msg : String)
deriving DecidableEq, Repr

/-- The observable effect of one iteration of the worker's event loop:
the log entries written, the value sent on `resCh` (if any), and whether
the loop continues (`false` exactly when the branch executes `return`). -/
structure WorkerAction where
  logs : List LogEntry
  sends : Option VMOutput
  continues : Bool
deriving DecidableEq, Repr

/-- The body of the worker goroutine's `select` statement in `runApp`:

* `<-channels.Done`: `logger.Info("Job Finished.")`; `return`;
* `l := <-channels.CmdOutput`: `logger.Info(l)`;
  `resCh <- vmjobs.VMOutput{VM: conf.BoxName, Line: l}`;
* `l := <-channels.Debug`: `logger.Trace(l)`;
* `l := <-channels.Info`: `logger.Debug(l)`;
* `err := <-channels.Error`: `logger.Error(err.Error())`.

Every branch logs with the field `"vm": conf.BoxName`. -/
def workerStep (conf : VMConfig) : VMEvent → WorkerAction
  | .done => ⟨[⟨.info, conf.BoxName, "Job Finished."⟩], none, false⟩
  | .cmdOutput l => ⟨[⟨.info, conf.BoxName, l⟩], some ⟨conf.BoxName, l⟩, true⟩
  | .debug l => ⟨[⟨.trace, conf.BoxName, l⟩], none, true⟩
  | .info l => ⟨[⟨.debug, conf.BoxName, l⟩], none, true⟩
  | .error m => ⟨[⟨.error, conf.BoxName, m⟩], none, true⟩

/-! ### Default-value helpers (top of main.go)

`runtime.NumCPU()` is passed explicitly. Go integer division truncates and
panics on a zero divisor; the panic is modelled as `none`. -/

def defaultMemory : Int := 1024

/-- `func defaultParallelism() int { return runtime.NumCPU() / 2 }` -/
def defaultParallelism (numCPU : Nat) : Nat := numCPU / 2

/-- `func defaultNumCPUs() int { return runtime.NumCPU() / defaultParallelism() }`.
When the divisor `defaultParallelism()` is `0`, the Go expression is an
integer division by zero, a runtime panic, modelled as `none`. -/
def defaultNumCPUs (numCPU : Nat) : Option Nat :=
  if defaultParallelism numCPU = 0 then none
  else some (numCPU / defaultParallelism numCPU)

/-! ### Parameter validation (`validateParameters`) -/

/-- The two `fmt.Errorf` cases of `validateParameters`. -/
inductive ValidationError where
  | cpusExceedHost
  | parallelismExceedsHost
deriving DecidableEq, Repr

/-- Result of `validateParameters`: the returned error (if any) and whether
the non-fatal `fmt.Printf` warning was printed. -/
structure ValidateResult where
  err : Option ValidationError
  warned : Bool
deriving DecidableEq, Repr

/-- Two's-complement wrap-around of Go's 64-bit `int` multiplication result. -/
def wrap64 (x : Int) : Int := (x + 2 ^ 63) % 2 ^ 64 - 2 ^ 63

/-- `func validateParameters(c *cli.Context) error`: returns an error when
`cpus > runtime.NumCPU()`, then when `parallelism > runtime.NumCPU()`;
otherwise prints a warning (and still returns `nil`) when
`parallelism*cpus > runtime.NumCPU()`. The product is Go 64-bit `int`
multiplication, hence wrapped. -/
def validateParameters (numCPU cpus parallelism : Int) : ValidateResult :=
  if cpus > numCPU then ⟨some .cpusExceedHost, false⟩
  else if parallelism > numCPU then ⟨some .parallelismExceedsHost, false⟩
  else if wrap64 (parallelism * cpus) > numCPU then ⟨none, true⟩
  else ⟨none, false⟩

/-! ### CLI flag lookup and `initLog`

The global flags defined in `main()` (`app.Flags`). `cli.Context.GlobalString`
returns the flag's stored string for a defined flag and the zero value `""`
for a name that was never defined. -/

/-- The names (with aliases) of the global flags declared in `app.Flags`. -/
def definedGlobalFlagNames : List String :=
  ["images", "i", "provider", "p", "memory", "cpus", "parallelism",
   "log.json", "log.level", "log.output"]

/-- `c.GlobalString(name)`: the stored value for a defined flag name,
`""` for an undefined one. A context is the list of (flag, value) pairs. -/
def GlobalString (ctx : List (String × String)) (name : String) : String :=
  if name ∈ definedGlobalFlagNames then ((ctx.lookup name).getD "") else ""

/-- `func initLog(c *cli.Context) error`, with the file-open primitive
(`os.OpenFile(..., os.O_RDWR|os.O_CREATE, 0644)`) passed in as `openf`.
When `len(c.GlobalString("log.output")) > 0`, the code opens the file named
by `c.GlobalString("log-output")` — note the different key — and returns
the open error if any; otherwise logging goes to stdout. The formatter and
level switches do not affect the return value. -/
def initLog (openf : String → Except String Unit) (ctx : List (String × String)) :
    Except String Unit :=
  if 0 < (GlobalString ctx "log.output").length then
    match openf (GlobalString ctx "log-output") with
    | .error e => .error e
    | .ok _ => .ok ()
  else .ok ()

/-- The reasons `runApp` returns (or `log.Fatal`s) before the dispatch loop. -/
inductive RunAbort where
  | validation (e : ValidationError)
  | logInit (e : String)
deriving DecidableEq, Repr

/-- The sequential head of `runApp`: `validateParameters`, then `initLog`,
each returned on error before `vmjobs.NewVMJob` is reached. `.ok ()` means
control reaches job construction and dispatch. -/
def runAppStart (numCPU cpus parallelism : Int)
    (openf : String → Except String Unit) (ctx : List (String × String)) :
    Except RunAbort Unit :=
  match (validateParameters numCPU cpus parallelism).err with
  | some e => .error (.validation e)
  | none =>
    match initLog openf ctx with
    | .error e => .error (.logInit e)
    | .ok _ => .ok ()

/-! ### Dispatch-loop VM configuration -/

/-- `name := fmt.Sprintf("/tmp/%s-%d", image, i)` for the `i`-th image. -/
def mkName (image : String) (i : Nat) : String :=
  "/tmp/" ++ image ++ "-" ++ Nat.repr i

/-- The `conf := &VMConfig{...}` literal of the dispatch loop. -/
def mkVMConfig (provider : String) (cpus memory : Int) (cmd : String)
    (image : String) (i : Nat) : VMConfig :=
  { Name := mkName image i
    BoxName := image
    ProviderName := provider
    CPUs := cpus
    Memory := memory
    Command := cmd }

/-! ### Concurrency skeleton of `runApp`

The dispatch loop, the worker goroutines, the aggregator goroutine and the
shutdown sequence are modelled as a labelled transition system. Counters
abstract the anonymous goroutines; the guards are exactly the blocking
conditions of the corresponding Go operations:

* `dispatch` — one iteration of `for i, image := range images`:
  `wg.Add(1); sm.Acquire(ctx, 1)` (blocks until a semaphore unit of the
  weight-`P` semaphore is free, never fails with `context.Background()`)
  and the `go func(){...}()` launch;
* `forward` — a running worker sends one `VMOutput` on `resCh`;
* `workerError` — a running worker receives an `Error` event, logs it and
  keeps looping (no state change, no release);
* `workerExit` — a worker returns; its `defer` runs `sm.Release(1)` and
  `wg.Done()`;
* `closeCh` — `close(resCh)`, reached only after the loop has dispatched
  all `M` images and `wg.Wait()` has returned (no live worker);
* `process` — the aggregator goroutine's `for res := range resCh` body
  consumes one queued record and calls `job.Process(res)`;
* `aggExit` — the range loop ends (channel closed and drained) and
  `resWg.Done()` runs;
* `doneCall` — after `resWg.Wait()` returns, `job.Done()` is invoked. -/

structure RunState where
  dispatched : Nat
  tokensHeld : Nat
  active : Nat
  exited : Nat
  queued : Nat
  closed : Bool
  aggExited : Bool
  doneCalled : Bool
deriving DecidableEq, Repr

/-- The state at the top of `runApp`'s dispatch phase. -/
def initState : RunState :=
  { dispatched := 0, tokensHeld := 0, active := 0, exited := 0,
    queued := 0, closed := false, aggExited := false, doneCalled := false }

inductive RunLabel where
  | dispatch
  | forward
  | workerError
  | workerExit
  | closeCh
  | process
  | aggExit
  | doneCall
deriving DecidableEq, Repr

/-- One step of the `runApp` concurrency skeleton with parallelism `P` and
`M` target images. -/
inductive RunStep (P M : Nat) : RunLabel → RunState → RunState → Prop where
  | dispatch (s : RunState) (hM : s.dispatched < M) (hP : s.tokensHeld < P) :
      RunStep P M .dispatch s
        { s with dispatched := s.dispatched + 1, tokensHeld := s.tokensHeld + 1,
                 active := s.active + 1 }
  | forward (s : RunState) (h : 0 < s.active) :
      RunStep P M .forward s { s with queued := s.queued + 1 }
  | workerError (s : RunState) (h : 0 < s.active) :
      RunStep P M .workerError s s
  | workerExit (s : RunState) (h : 0 < s.active) :
      RunStep P M .workerExit s
        { s with active := s.active - 1, exited := s.exited + 1,
                 tokensHeld := s.tokensHeld - 1 }
  | closeCh (s : RunState) (hd : s.dispatched = M) (ha : s.active = 0)
      (hc : s.closed = false) :
      RunStep P M .closeCh s { s with closed := true }
  | process (s : RunState) (h : 0 < s.queued) :
      RunStep P M .process s { s with queued := s.queued - 1 }
  | aggExit (s : RunState) (hc : s.closed = true) (hq : s.queued = 0)
      (ha : s.aggExited = false) :
      RunStep P M .aggExit s { s with aggExited := true }
  | doneCall (s : RunState) (ha : s.aggExited = true) (hd : s.doneCalled = false) :
      RunStep P M .doneCall s { s with doneCalled := true }

/-- A finite execution: the list of labels taken from one state to another. -/
inductive RunTrace (P M : Nat) : RunState → List RunLabel → RunState → Prop where
  | refl (s : RunState) : RunTrace P M s [] s
  | step {s1 s2 s3 : RunState} {l : RunLabel} {ls : List RunLabel} :
      RunStep P M l s1 s2 → RunTrace P M s2 ls s3 → RunTrace P M s1 (l :: ls) s3

/-- A state of the system reachable from the start of dispatch. -/
def Reachable (P M : Nat) (s : RunState) : Prop :=
  ∃ tr, RunTrace P M initState tr s

/-- The inductive invariant of the skeleton. -/
def RunInv (P M : Nat) (s : RunState) : Prop :=
  s.tokensHeld = s.active ∧
  s.active + s.exited = s.dispatched ∧
  s.dispatched ≤ M ∧
  s.tokensHeld ≤ P ∧
  (s.closed = true → s.dispatched = M ∧ s.active = 0) ∧
  (s.aggExited = true → s.closed = true ∧ s.queued = 0) ∧
  (s.doneCalled = true → s.aggExited = true)

theorem runStep_inv {P M : Nat} {l : RunLabel} {s1 s2 : RunState}
    (h : RunStep P M l s1 s2) (hinv : RunInv P M s1) : RunInv P M s2 := by
  unfold RunInv at hinv ⊢
  obtain ⟨h1, h2, h3, h4, h5, h6, h7⟩ := hinv
  cases h with
  | dispatch s hM hP =>
    dsimp only
    exact ⟨by omega, by omega, by omega, by omega,
           fun hc => absurd (h5 hc).1 (by omega), h6, h7⟩
  | forward s h =>
    dsimp only
    exact ⟨h1, h2, h3, h4, h5,
           fun hA => absurd (h5 (h6 hA).1).2 (by omega), h7⟩
  | workerError s h =>
    exact ⟨h1, h2, h3, h4, h5, h6, h7⟩
  | workerExit s h =>
    dsimp only
    exact ⟨by omega, by omega, h3, by omega,
           fun hc => absurd (h5 hc).2 (by omega), h6, h7⟩
  | closeCh s hd ha hc =>
    dsimp only
    exact ⟨h1, h2, h3, h4, fun _ => ⟨hd, ha⟩,
           fun hA => ⟨rfl, (h6 hA).2⟩, h7⟩
  | process s h =>
    dsimp only
    exact ⟨h1, h2, h3, h4, h5,
           fun hA => absurd (h6 hA).2 (by omega), h7⟩
  | aggExit s hc hq ha =>
    dsimp only
    exact ⟨h1, h2, h3, h4, h5, fun _ => ⟨hc, hq⟩, fun _ => rfl⟩
  | doneCall s ha hd =>
    dsimp only
    exact ⟨h1, h2, h3, h4, h5, h6, fun _ => ha⟩

theorem initState_inv (P M : Nat) : RunInv P M initState := by
  simp [RunInv, initState]

theorem runTrace_inv {P M : Nat} {s1 : RunState} {tr : List RunLabel} {s2 : RunState}
    (h : RunTrace P M s1 tr s2) (hinv : RunInv P M s1) : RunInv P M s2 := by
  induction h with
  | refl _ => exact hinv
  | step hstep _ ih => exact ih (runStep_inv hstep hinv)

theorem reachable_inv {P M : Nat} {s : RunState} (h : Reachable P M s) :
    RunInv P M s := by
  obtain ⟨tr, htr⟩ := h
  exact runTrace_inv htr (initState_inv P M)

theorem runTrace_append {P M : Nat} {s1 s2 s3 : RunState} {tr1 tr2 : List RunLabel}
    (h1 : RunTrace P M s1 tr1 s2) (h2 : RunTrace P M s2 tr2 s3) :
    RunTrace P M s1 (tr1 ++ tr2) s3 := by
  induction h1 with
  | refl s => simpa using h2
  | step hstep htr ih => exact .step hstep (by simpa using ih h2)

/-- Along any execution, the number of `dispatch` steps taken is exactly the
increase of the `dispatched` counter. -/
theorem runTrace_count_dispatch {P M : Nat} {s1 : RunState} {tr : List RunLabel}
    {s2 : RunState} (h : RunTrace P M s1 tr s2) :
    s2.dispatched = s1.dispatched + tr.count .dispatch := by
  induction h with
  | refl s => simp
  | step hstep htr ih =>
    cases hstep <;> simp_all [List.count_cons] <;> omega

/-- Along any execution, the number of `workerExit` steps (each of which runs
`sm.Release(1)` exactly once) is exactly the increase of `exited`. -/
theorem runTrace_count_workerExit {P M : Nat} {s1 : RunState} {tr : List RunLabel}
    {s2 : RunState} (h : RunTrace P M s1 tr s2) :
    s2.exited = s1.exited + tr.count .workerExit := by
  induction h with
  | refl s => simp
  | step hstep htr ih =>
    cases hstep <;> simp_all [List.count_cons] <;> omega

/-- `doneCall` fires only from a state where `doneCalled` is still false and
sets it; no step resets it, so the number of `doneCall` steps in a trace is
the difference of the boolean indicators. -/
theorem runTrace_count_doneCall {P M : Nat} {s1 : RunState} {tr : List RunLabel}
    {s2 : RunState} (h : RunTrace P M s1 tr s2) :
    tr.count .doneCall + (if s1.doneCalled = true then 1 else 0) =
      (if s2.doneCalled = true then 1 else 0) := by
  induction h with
  | refl s => simp
  | step hstep htr ih =>
    cases hstep <;> simp_all [List.count_cons] <;> omega

/-! ### A complete sequential execution

With parallelism at least 1, dispatching each image and letting its worker
finish immediately, then closing, draining and finalizing, is a legal
execution; it witnesses that the shutdown sequence can actually run. -/

/-- State after `k` images have been dispatched and their workers have exited. -/
def serialState (k : Nat) : RunState :=
  { dispatched := k, tokensHeld := 0, active := 0, exited := k,
    queued := 0, closed := false, aggExited := false, doneCalled := false }

/-- Labels of the sequential execution of the first `k` images. -/
def serialLabels : Nat → List RunLabel
  | 0 => []
  | k + 1 => serialLabels k ++ [.dispatch, .workerExit]

theorem serialTrace {P M : Nat} (hP : 0 < P) :
    ∀ k, k ≤ M → RunTrace P M initState (serialLabels k) (serialState k)
  | 0, _ => RunTrace.refl initState
  | k + 1, hk =>
    runTrace_append (serialTrace hP k (Nat.le_of_succ_le hk))
      (RunTrace.step (RunStep.dispatch (serialState k) (Nat.lt_of_succ_le hk) hP)
        (RunTrace.step (RunStep.workerExit _ (Nat.succ_pos 0))
          (RunTrace.refl _)))

/-- A full run: dispatch everything serially, close the channel, let the
aggregator exit, call `job.Done()`. -/
theorem completeTrace (P M : Nat) (hP : 0 < P) :
    ∃ tr s, RunTrace P M initState tr s ∧ s.doneCalled = true ∧
      tr.count RunLabel.doneCall = 1 := by
  refine ⟨serialLabels M ++ [.closeCh, .aggExit, .doneCall], _,
    runTrace_append (serialTrace hP M (Nat.le_refl M))
      (RunTrace.step (RunStep.closeCh (serialState M) rfl rfl rfl)
        (RunTrace.step (RunStep.aggExit _ rfl rfl rfl)
          (RunTrace.step (RunStep.doneCall _ rfl rfl)
            (RunTrace.refl _)))), rfl, ?_⟩
  have h := runTrace_count_doneCall
    (runTrace_append (serialTrace hP M (Nat.le_refl M))
      (RunTrace.step (RunStep.closeCh (serialState M) rfl rfl rfl)
        (RunTrace.step (RunStep.aggExit _ rfl rfl rfl)
          (RunTrace.step (RunStep.doneCall _ rfl rfl)
            (RunTrace.refl _)))))
  simpa [initState] using h

/-! ### Claims about the concurrency skeleton (C1, C2, C3) -/

/-- C1: for every parallelism setting `P` and image list length `M`, in every
reachable state of the dispatch/worker system the number of workers holding an
admission token is at most `P`; moreover every `dispatch` step is guarded by a
blocking acquire — it can fire only with a free token, takes exactly one, and
only then starts the worker. -/
theorem admission_bound (P M : Nat) (s : RunState) (h : Reachable P M s) :
    s.tokensHeld ≤ P ∧
      (∀ s1 s2 : RunState, RunStep P M .dispatch s1 s2 →
        s1.tokensHeld < P ∧ s2.tokensHeld = s1.tokensHeld + 1 ∧
          s2.active = s1.active + 1) := by
  refine ⟨(reachable_inv h).2.2.2.1, fun s1 s2 hstep => ?_⟩
  cases hstep with
  | dispatch s hM hP => exact ⟨hP, rfl, rfl⟩

/-- Witness for C1 at `P = 2`, `M = 3`, in the state reached by one
`dispatch` step. -/
theorem admission_bound_witness :
    ({ dispatched := 1, tokensHeld := 1, active := 1, exited := 0, queued := 0,
       closed := false, aggExited := false, doneCalled := false } : RunState).tokensHeld ≤ 2 ∧
      (∀ s1 s2 : RunState, RunStep 2 3 .dispatch s1 s2 →
        s1.tokensHeld < 2 ∧ s2.tokensHeld = s1.tokensHeld + 1 ∧
          s2.active = s1.active + 1) :=
  admission_bound 2 3 _
    ⟨[.dispatch], RunTrace.step
      (RunStep.dispatch initState (by decide) (by decide)) (RunTrace.refl _)⟩

/-- C2: in every execution of the system, `job.Done()` is called at most once;
whenever it has been called, all `M` images were dispatched, every worker has
returned, the aggregation channel is closed, the queue is drained and the
aggregator has exited (the guards of `closeCh`, `aggExit` and `doneCall`
enforce exactly the order join-all → close → drain → done); and with
parallelism at least 1 there is a complete execution calling it exactly once. -/
theorem shutdown_ordering (P M : Nat) (tr : List RunLabel) (s : RunState)
    (h : RunTrace P M initState tr s) :
    tr.count RunLabel.doneCall ≤ 1 ∧
      (s.doneCalled = true →
        s.dispatched = M ∧ s.active = 0 ∧ s.exited = M ∧ s.closed = true ∧
          s.queued = 0 ∧ s.aggExited = true) ∧
      (0 < P → ∃ tr2 s2, RunTrace P M initState tr2 s2 ∧ s2.doneCalled = true ∧
        tr2.count RunLabel.doneCall = 1) := by
  have hinv := runTrace_inv h (initState_inv P M)
  obtain ⟨h1, h2, h3, h4, h5, h6, h7⟩ := hinv
  refine ⟨?_, fun hd => ?_, fun hP => completeTrace P M hP⟩
  · have hc := runTrace_count_doneCall h
    cases hsd : s.doneCalled <;> simp [initState, hsd] at hc <;> omega
  · have hAgg := h7 hd
    have hCl := (h6 hAgg).1
    have hq := (h6 hAgg).2
    have hDisp := (h5 hCl).1
    have hAct := (h5 hCl).2
    exact ⟨hDisp, hAct, by omega, hCl, hq, hAgg⟩

/-- Witness for C2 on the empty execution at `P = 2`, `M = 2`. -/
theorem shutdown_ordering_witness :
    ([] : List RunLabel).count RunLabel.doneCall ≤ 1 ∧
      (initState.doneCalled = true →
        initState.dispatched = 2 ∧ initState.active = 0 ∧ initState.exited = 2 ∧
          initState.closed = true ∧ initState.queued = 0 ∧
          initState.aggExited = true) ∧
      (0 < 2 → ∃ tr2 s2, RunTrace 2 2 initState tr2 s2 ∧ s2.doneCalled = true ∧
        tr2.count RunLabel.doneCall = 1) :=
  shutdown_ordering 2 2 [] initState (RunTrace.refl initState)

/-- C3: token conservation. In every execution: the tokens currently held plus
the tokens already released (one per exited worker, by the `defer`ed
`sm.Release(1)`) equal the tokens acquired (one per dispatched worker); each
`workerExit` step releases exactly one token — the trace contains exactly
`exited`-many of them and exactly `dispatched`-many `dispatch` steps — workers
that reported `Error` events (`workerError` steps) included; and once no
worker is active no token is still held. -/
theorem token_conservation (P M : Nat) (tr : List RunLabel) (s : RunState)
    (h : RunTrace P M initState tr s) :
    s.tokensHeld + s.exited = s.dispatched ∧
      s.tokensHeld = s.active ∧
      tr.count RunLabel.dispatch = s.dispatched ∧
      tr.count RunLabel.workerExit = s.exited ∧
      (s.active = 0 → s.tokensHeld = 0) := by
  have hinv := runTrace_inv h (initState_inv P M)
  obtain ⟨h1, h2, h3, h4, h5, h6, h7⟩ := hinv
  have hd := runTrace_count_dispatch h
  have he := runTrace_count_workerExit h
  simp only [initState] at hd he
  exact ⟨by omega, h1, by omega, by omega, fun ha => by omega⟩

/-- Witness for C3: a worker that logs two `Error` events before exiting,
with `P = 1`, `M = 1`. -/
theorem token_conservation_witness :
    ∃ s : RunState,
      RunTrace 1 1 initState
        [.dispatch, .workerError, .workerError, .workerExit] s ∧
      (s.tokensHeld + s.exited = s.dispatched ∧
        s.tokensHeld = s.active ∧
        [RunLabel.dispatch, RunLabel.workerError, RunLabel.workerError,
          RunLabel.workerExit].count RunLabel.dispatch = s.dispatched ∧
        [RunLabel.dispatch, RunLabel.workerError, RunLabel.workerError,
          RunLabel.workerExit].count RunLabel.workerExit = s.exited ∧
        (s.active = 0 → s.tokensHeld = 0)) := by
  refine ⟨_, RunTrace.step (RunStep.dispatch initState (by decide) (by decide))
    (RunTrace.step (RunStep.workerError _ (Nat.succ_pos 0))
      (RunTrace.step (RunStep.workerError _ (Nat.succ_pos 0))
        (RunTrace.step (RunStep.workerExit _ (Nat.succ_pos 0))
          (RunTrace.refl _)))), ?_⟩
  exact token_conservation 1 1 _ _
    (RunTrace.step (RunStep.dispatch initState (by decide) (by decide))
      (RunTrace.step (RunStep.workerError _ (Nat.succ_pos 0))
        (RunTrace.step (RunStep.workerError _ (Nat.succ_pos 0))
          (RunTrace.step (RunStep.workerExit _ (Nat.succ_pos 0))
            (RunTrace.refl _)))))

/-! ### Claims about the worker event loop (C4, C5) -/

/-- C4: in the worker's `select` loop, an `Error` event is logged at error
severity and neither terminates the loop nor aborts the session (the loop
continues and nothing is forwarded); `Done` is the only event on which the
loop returns; a `CommandOutput` event is logged and forwarded to `resCh`
as a `VMOutput`. -/
theorem worker_loop_events (conf : VMConfig) (l m : String) :
    (workerStep conf (.error m)).continues = true ∧
    (workerStep conf (.error m)).sends = none ∧
    (workerStep conf (.error m)).logs = [⟨.error, conf.BoxName, m⟩] ∧
    (∀ e : VMEvent, (workerStep conf e).continues = false ↔ e = .done) ∧
    (workerStep conf (.cmdOutput l)).logs = [⟨.info, conf.BoxName, l⟩] ∧
    (workerStep conf (.cmdOutput l)).sends = some ⟨conf.BoxName, l⟩ := by
  refine ⟨rfl, rfl, rfl, fun e => ?_, rfl, rfl⟩
  cases e <;> simp [workerStep]

/-- A concrete `VMConfig` as built by the dispatch loop for image `"ubuntu"`
at index 0. -/
def sampleConf : VMConfig :=
  { Name := "/tmp/ubuntu-0", BoxName := "ubuntu", ProviderName := "virtualbox",
    CPUs := 2, Memory := 1024, Command := "echo hi" }

/-- C5 fails on the code: at the concrete config `sampleConf`, an `Info`
event is not logged at info severity and a `Debug` event is not logged at
debug severity (the code logs `channels.Info` with `logger.Debug` and
`channels.Debug` with `logger.Trace`). -/
theorem worker_severity_counterexample :
    ¬(((workerStep sampleConf (VMEvent.info "line")).logs.map LogEntry.level =
        [LogLevel.info]) ∧
      ((workerStep sampleConf (VMEvent.debug "line")).logs.map LogEntry.level =
        [LogLevel.debug])) := by
  decide

/-- C5 amended: an `Info` event is logged at debug severity and a `Debug`
event at trace severity (one level below the event's variant), and neither
variant is forwarded to the aggregation channel. -/
theorem worker_severity_mapping (conf : VMConfig) (l : String) :
    workerStep conf (.info l) = ⟨[⟨.debug, conf.BoxName, l⟩], none, true⟩ ∧
    workerStep conf (.debug l) = ⟨[⟨.trace, conf.BoxName, l⟩], none, true⟩ :=
  ⟨rfl, rfl⟩

/-! ### Claim about the default-value helpers (C8) -/

/-- C8: `defaultParallelism` is host CPUs halved (integer division), and
`defaultNumCPUs` divides the host CPU count by it, so on a host reporting
exactly 1 CPU the divisor is 0 and the default per-VM CPU count is a
division by zero (`none`); the helper is total exactly on hosts with at
least 2 CPUs, where it returns `numCPU / (numCPU / 2)`. -/
theorem default_cpus_division_by_zero :
    defaultNumCPUs 1 = none ∧ defaultParallelism 1 = 0 ∧
    (∀ numCPU : Nat, defaultParallelism numCPU = numCPU / 2) ∧
    (∀ numCPU : Nat, (defaultNumCPUs numCPU).isSome ↔ 2 ≤ numCPU) ∧
    (∀ k : Nat, defaultNumCPUs (k + 2) = some ((k + 2) / ((k + 2) / 2))) := by
  refine ⟨rfl, rfl, fun _ => rfl, fun n => ?_, fun k => ?_⟩
  · simp only [defaultNumCPUs, defaultParallelism]
    split <;> simp <;> omega
  · simp only [defaultNumCPUs, defaultParallelism]
    split <;> simp <;> omega

/-! ### Claim about parameter validation (C6) -/

theorem wrap64_eq_self (x : Int) (h1 : -(2 ^ 63) ≤ x) (h2 : x < 2 ^ 63) :
    wrap64 x = x := by
  unfold wrap64; omega

/-- C6: `validateParameters` returns an error exactly when the per-VM CPU
count or the parallelism exceeds the host CPU count, and only warns — still
returning `nil` — when their product exceeds the host CPU count. Stated for
flag values within ±2^31, where the 64-bit product cannot wrap. -/
theorem validate_parameters_spec (numCPU cpus parallelism : Int)
    (hc1 : -2147483648 ≤ cpus) (hc2 : cpus ≤ 2147483648)
    (hp1 : -2147483648 ≤ parallelism) (hp2 : parallelism ≤ 2147483648) :
    ((validateParameters numCPU cpus parallelism).err.isSome ↔
      (numCPU < cpus ∨ numCPU < parallelism)) ∧
    ((validateParameters numCPU cpus parallelism).warned = true ↔
      (cpus ≤ numCPU ∧ parallelism ≤ numCPU ∧ numCPU < parallelism * cpus)) ∧
    ((validateParameters numCPU cpus parallelism).warned = true →
      (validateParameters numCPU cpus parallelism).err = none) := by
  have h1 : |cpus| ≤ 2147483648 := abs_le.mpr ⟨hc1, hc2⟩
  have h2 : |parallelism| ≤ 2147483648 := abs_le.mpr ⟨hp1, hp2⟩
  have h3 : |parallelism * cpus| ≤ 2147483648 * 2147483648 := by
    rw [abs_mul]
    exact mul_le_mul h2 h1 (abs_nonneg _) (by norm_num)
  have h4 := abs_le.mp h3
  have hw : wrap64 (parallelism * cpus) = parallelism * cpus :=
    wrap64_eq_self _ (by omega) (by omega)
  simp only [validateParameters, hw]
  split_ifs with hg1 hg2 hg3 <;> simp <;> omega

/-- Witness for C6 at host CPUs 4, per-VM CPUs 2, parallelism 4: no error is
returned and the product warning fires. -/
theorem validate_parameters_spec_witness :
    ((validateParameters 4 2 4).err.isSome ↔ ((4 : Int) < 2 ∨ (4 : Int) < 4)) ∧
    ((validateParameters 4 2 4).warned = true ↔
      ((2 : Int) ≤ 4 ∧ (4 : Int) ≤ 4 ∧ (4 : Int) < 4 * 2)) ∧
    ((validateParameters 4 2 4).warned = true →
      (validateParameters 4 2 4).err = none) :=
  validate_parameters_spec 4 2 4 (by decide) (by decide) (by decide) (by decide)

/-! ### Claim about `initLog` and the misspelled flag key (C9) -/

/-- C9: `"log-output"` is not among the defined flags, so
`GlobalString ctx "log-output"` is `""` for every context; when the
`log.output` option holds a non-empty filename, `initLog` therefore opens
the empty filename (its result depends on the open primitive only at `""`,
never at the configured name), returns the resulting open error, and
`runApp` aborts with it before any job is constructed. -/
theorem initlog_opens_wrong_key (numCPU cpus parallelism : Int)
    (openf : String → Except String Unit) (ctx : List (String × String))
    (e : String)
    (hset : 0 < (GlobalString ctx "log.output").length)
    (hopen : openf "" = .error e)
    (hval : (validateParameters numCPU cpus parallelism).err = none) :
    GlobalString ctx "log-output" = "" ∧
    (∀ g : String → Except String Unit, g "" = openf "" →
      initLog g ctx = initLog openf ctx) ∧
    initLog openf ctx = .error e ∧
    runAppStart numCPU cpus parallelism openf ctx = .error (.logInit e) := by
  have hkey : GlobalString ctx "log-output" = "" := by
    simp [GlobalString, definedGlobalFlagNames]
  have hlog : initLog openf ctx = .error e := by
    simp only [initLog, hkey, hopen, if_pos hset]
  refine ⟨hkey, fun g hg => ?_, hlog, ?_⟩
  · simp only [initLog, hkey, hg]
  · simp only [runAppStart, hval, hlog]

/-- Witness for C9: `--log.output app.log` on a 4-CPU host with default-like
cpus 2 and parallelism 2, and an open primitive failing on the empty
filename. -/
theorem initlog_opens_wrong_key_witness :
    GlobalString [("log.output", "app.log")] "log-output" = "" ∧
    (∀ g : String → Except String Unit,
      g "" = (fun _ => (.error "open : no such file or directory" :
        Except String Unit)) "" →
      initLog g [("log.output", "app.log")] =
        initLog (fun _ => .error "open : no such file or directory")
          [("log.output", "app.log")]) ∧
    initLog (fun _ => .error "open : no such file or directory")
        [("log.output", "app.log")] =
      .error "open : no such file or directory" ∧
    runAppStart 4 2 2 (fun _ => .error "open : no such file or directory")
        [("log.output", "app.log")] =
      .error (.logInit "open : no such file or directory") :=
  initlog_opens_wrong_key 4 2 2
    (fun _ => .error "open : no such file or directory")
    [("log.output", "app.log")] "open : no such file or directory"
    (by decide) rfl rfl

/-! ### Decimal representation facts for the instance names (C7, C10)

`fmt.Sprintf("%d", i)` for a non-negative `int` is the decimal numeral,
i.e. `Nat.repr i`. The lemmas below show the numeral decodes back to `i`
and contains no dash, which makes `image ++ "-" ++ numeral` collision-free
across distinct indices. -/

theorem toDigitsCore_acc (fuel : Nat) : ∀ (n : Nat) (acc : List Char),
    Nat.toDigitsCore 10 fuel n acc = Nat.toDigitsCore 10 fuel n [] ++ acc := by
  induction fuel with
  | zero => intro n acc; simp [Nat.toDigitsCore]
  | succ f ih =>
    intro n acc
    simp only [Nat.toDigitsCore]
    by_cases h0 : n / 10 = 0
    · simp [h0]
    · simp only [h0, if_false]
      rw [ih (n / 10) (Nat.digitChar (n % 10) :: acc),
          ih (n / 10) [Nat.digitChar (n % 10)]]
      simp

/-- Reading a list of decimal digit characters back as a number. -/
def decodeDecDigits (l : List Char) : Nat :=
  l.foldl (fun a c => 10 * a + (c.toNat - 48)) 0

theorem digitChar_val (d : Nat) (h : d < 10) :
    (Nat.digitChar d).toNat = d + 48 ∧ Nat.digitChar d ≠ '-' := by
  interval_cases d <;> exact ⟨rfl, by decide⟩

theorem toDigitsCore_decode (fuel : Nat) : ∀ n, n < fuel →
    decodeDecDigits (Nat.toDigitsCore 10 fuel n []) = n ∧
    Nat.toDigitsCore 10 fuel n [] ≠ [] ∧
    ∀ c ∈ Nat.toDigitsCore 10 fuel n [], c ≠ '-' := by
  induction fuel with
  | zero => intro n h; exact absurd h (Nat.not_lt_zero n)
  | succ f ih =>
    intro n hn
    simp only [Nat.toDigitsCore]
    by_cases h0 : n / 10 = 0
    · have hn10 : n % 10 = n := by omega
      have hd := digitChar_val (n % 10) (Nat.mod_lt n (by norm_num))
      refine ⟨?_, by simp [h0], ?_⟩
      · simp only [h0, if_true, decodeDecDigits, List.foldl]
        omega
      · intro c hc
        simp only [h0, if_true, List.mem_singleton] at hc
        subst hc; exact hd.2
    · have hlt : n / 10 < f := by omega
      obtain ⟨hdec, hne, hdig⟩ := ih (n / 10) hlt
      have hd := digitChar_val (n % 10) (Nat.mod_lt n (by omega))
      simp only [h0, if_false]
      rw [toDigitsCore_acc]
      refine ⟨?_, by simp, ?_⟩
      · simp only [decodeDecDigits, List.foldl_append, List.foldl]
        simp only [decodeDecDigits] at hdec
        rw [hdec]
        omega
      · intro c hc
        rcases List.mem_append.mp hc with h | h
        · exact hdig c h
        · simp only [List.mem_singleton] at h
          subst h; exact hd.2

theorem natRepr_decode (n : Nat) :
    decodeDecDigits (Nat.repr n).data = n ∧
    ∀ c ∈ (Nat.repr n).data, c ≠ '-' := by
  have h := toDigitsCore_decode (n + 1) n (Nat.lt_succ_self n)
  exact ⟨h.1, h.2.2⟩

theorem append_dash_cancel : ∀ (a1 a2 b1 b2 : List Char),
    (∀ c ∈ a1, c ≠ '-') → (∀ c ∈ a2, c ≠ '-') →
    a1 ++ '-' :: b1 = a2 ++ '-' :: b2 → a1 = a2 ∧ b1 = b2 := by
  intro a1
  induction a1 with
  | nil =>
    intro a2 b1 b2 _ h2 h
    cases a2 with
    | nil => simpa using h
    | cons c t =>
      exfalso
      have : c = '-' := by simpa using congrArg (List.headD · ' ') h.symm
      exact h2 c (List.mem_cons_self c t) this
  | cons c t ih =>
    intro a2 b1 b2 h1 h2 h
    cases a2 with
    | nil =>
      exfalso
      have : c = '-' := by simpa using congrArg (List.headD · ' ') h
      exact h1 c (List.mem_cons_self c t) this
    | cons c' t' =>
      simp only [List.cons_append, List.cons.injEq] at h
      obtain ⟨hc, ht⟩ := h
      have := ih t' b1 b2 (fun x hx => h1 x (List.mem_cons_of_mem c hx))
        (fun x hx => h2 x (List.mem_cons_of_mem c' hx)) ht
      exact ⟨by rw [hc, this.1], this.2⟩

/-- Two instance names built by the dispatch loop agree only if their
ordinal indices agree, whatever the two images are. -/
theorem mkName_inj (im1 im2 : String) (i j : Nat)
    (h : mkName im1 i = mkName im2 j) : i = j := by
  have hdata : ("/tmp/" ++ im1 ++ "-").data ++ (Nat.repr i).data =
      ("/tmp/" ++ im2 ++ "-").data ++ (Nat.repr j).data := by
    have := congrArg String.data h
    simpa [mkName] using this
  have hrev : (Nat.repr i).data.reverse ++ '-' :: ("/tmp/" ++ im1).data.reverse =
      (Nat.repr j).data.reverse ++ '-' :: ("/tmp/" ++ im2).data.reverse := by
    have := congrArg List.reverse hdata
    simpa [List.reverse_append] using this
  have hdi := natRepr_decode i
  have hdj := natRepr_decode j
  have hcancel := append_dash_cancel _ _ _ _
    (fun c hc => hdi.2 c (List.mem_reverse.mp hc))
    (fun c hc => hdj.2 c (List.mem_reverse.mp hc)) hrev
  have : (Nat.repr i).data = (Nat.repr j).data :=
    List.reverse_injective hcancel.1
  rw [← hdi.1, ← hdj.1, this]

/-- C7: distinct dispatch iterations `(i, image_i)` and `(j, image_j)` with
`i ≠ j` construct distinct `VMConfig` instance names: the name is the image
name plus the ordinal index, so even two concurrent instances of the same
image get different names. -/
theorem instance_names_distinct (provider : String) (cpus memory : Int)
    (cmd : String) (im1 im2 : String) (i j : Nat) (hij : i ≠ j) :
    (mkVMConfig provider cpus memory cmd im1 i).Name ≠
      (mkVMConfig provider cpus memory cmd im2 j).Name :=
  fun h => hij (mkName_inj im1 im2 i j h)

/-- Witness for C7: iterations 0 and 1 of the same image `"ubuntu"`. -/
theorem instance_names_distinct_witness :
    (mkVMConfig "virtualbox" 2 1024 "echo hi" "ubuntu" 0).Name ≠
      (mkVMConfig "virtualbox" 2 1024 "echo hi" "ubuntu" 1).Name :=
  instance_names_distinct "virtualbox" 2 1024 "echo hi" "ubuntu" "ubuntu" 0 1
    (by decide)

/-- C10: the VM identifier on every forwarded `VMOutput` and on every worker
log line is the box (image) name, not the unique per-instance name: for two
dispatch iterations `i ≠ j` of the same image the forwarded records carry
identical identifiers and all log lines carry the image name as their `"vm"`
field, even though the two instance names differ. -/
theorem vm_identifier_is_box_name (provider : String) (cpus memory : Int)
    (cmd image : String) (i j : Nat) (l : String) (hij : i ≠ j) :
    (workerStep (mkVMConfig provider cpus memory cmd image i)
        (.cmdOutput l)).sends = some ⟨image, l⟩ ∧
    (workerStep (mkVMConfig provider cpus memory cmd image j)
        (.cmdOutput l)).sends =
      (workerStep (mkVMConfig provider cpus memory cmd image i)
        (.cmdOutput l)).sends ∧
    (∀ e : VMEvent,
      ∀ entry ∈ (workerStep (mkVMConfig provider cpus memory cmd image i) e).logs,
        entry.vmField = image) ∧
    (mkVMConfig provider cpus memory cmd image i).Name ≠
      (mkVMConfig provider cpus memory cmd image j).Name := by
  refine ⟨rfl, rfl, fun e entry hm => ?_,
    fun h => hij (mkName_inj image image i j h)⟩
  cases e <;> simp_all [workerStep, mkVMConfig]

/-- Witness for C10: two instances of image `"ubuntu"` at indices 0 and 1. -/
theorem vm_identifier_is_box_name_witness :
    (workerStep (mkVMConfig "virtualbox" 2 1024 "echo hi" "ubuntu" 0)
        (.cmdOutput "out")).sends = some ⟨"ubuntu", "out"⟩ ∧
    (workerStep (mkVMConfig "virtualbox" 2 1024 "echo hi" "ubuntu" 1)
        (.cmdOutput "out")).sends =
      (workerStep (mkVMConfig "virtualbox" 2 1024 "echo hi" "ubuntu" 0)
        (.cmdOutput "out")).sends ∧
    (∀ e : VMEvent,
      ∀ entry ∈ (workerStep (mkVMConfig "virtualbox" 2 1024 "echo hi" "ubuntu" 0)
        e).logs, entry.vmField = "ubuntu") ∧
    (mkVMConfig "virtualbox" 2 1024 "echo hi" "ubuntu" 0).Name ≠
      (mkVMConfig "virtualbox" 2 1024 "echo hi" "ubuntu" 1).Name :=
  vm_identifier_is_box_name "virtualbox" 2 1024 "echo hi" "ubuntu" 0 1 "out"
    (by decide)
